import Mathlib

/-!
Verification development for the `mouse-actions` gesture daemon
(sources: `src/config.rs`, `src/grab.rs`).

The Rust code is shallowly embedded: mutexed shared state becomes explicit
state passing, the `rdev` event types and the `event.rs` data model (which is
not among the given sources) are modelled from the specification, and the
resolver callback `process_event_fn` is an arbitrary function parameter.
Machine integers are modelled by `Int`; wherever the code performs `i32`
arithmetic that can overflow (the subtractions, the multiplication by 100 and
the centroid sum in `normalize_points`), the operation is wrapped into the
`i32` range with an explicit `% 2^32` (`wrap32`); elsewhere the code only
copies and compares coordinates, where `Int` is exact. Rust integer division
`/` truncates toward zero, which is `Int.tdiv`.
-/

/-- 2D integer screen coordinate (`event.rs`: `Point { x: i32, y: i32 }`,
visible in the `config.rs` tests). -/
structure Point where
  x : Int
  y : Int
deriving Repr, DecidableEq

/-- Modelled from the spec: the bounded capacity of `PointHistory`
("observed cap ≈ 1024 entries"); `PointHistory` itself is in `event.rs`,
which is not among the given sources. -/
def pointHistoryCap : Nat := 1024

/-- Modelled from the spec: `PointHistory` is an ordered bounded sequence of
points; we represent it by its list of entries in chronological order. -/
abbrev PointHistory := List Point

/-- Modelled from the spec: "full" means the history has reached its
capacity. -/
def PointHistory.is_full (h : PointHistory) : Bool :=
  pointHistoryCap ≤ h.length

/-- Modelled from the spec: pushes append in order; "full is checked before
every push — excess points are dropped (ignored) rather than overwriting
history". -/
def PointHistory.push (h : PointHistory) (p : Point) : PointHistory :=
  if h.is_full then h else h ++ [p]

/-- Modelled from the spec: a direction angle of one consecutive point pair.
The numeric angle in the code is a floating-point value computed by
`points_to_angles.rs` (not among the given sources) from the displacement of
the pair; we represent the angle by that displacement, which determines it. -/
structure Angle where
  dx : Int
  dy : Int
deriving Repr, DecidableEq

/-- Modelled from the spec: `points_to_angles` "converts a trace of N points
into a sequence of up to N−1 direction angles, one per consecutive pair"
(`points_to_angles.rs` is not among the given sources). -/
def points_to_angles (ps : List Point) : List Angle :=
  List.zipWith (fun p q => ⟨q.x - p.x, q.y - p.y⟩) ps ps.tail

/-- Two's-complement wrap into the `i32` range `[-2^31, 2^31)`: the value a
wrapping Rust `i32` operation produces on overflow (release mode; debug mode
panics on the same overflows, so an overflowing run never yields the ideal
unbounded result either way). -/
def wrap32 (z : Int) : Int := (z + 2 ^ 31) % 2 ^ 32 - 2 ^ 31

/-- Rust `iter().sum::<i32>()`: a left fold of `i32` addition from 0. -/
def sum32 (l : List Int) : Int := l.foldl (fun a b => wrap32 (a + b)) 0

/-- `grab.rs::normalize_points`, literally, with `i32` arithmetic: empty
input gives an empty output; otherwise compute the bounding box; only when
both (`i32`-computed) spans are strictly positive scale each point by
`100 * (coord - center) / span` per axis — the subtractions and the
multiplication by 100 are `i32` operations (`wrap32`), the division is
toward-zero (`Int.tdiv`; its divisor is positive here, so it neither panics
nor overflows) — centering on the integer centroid (`use_avg`, with the
`i32` sum) or the bounding-box minimum. The output is built with
`PointHistory::push`. -/
def normalize_points (input_points : PointHistory) (use_avg : Bool) :
    PointHistory :=
  match input_points with
  | [] => []
  | p0 :: rest =>
    let min_x := rest.foldl (fun a q => min a q.x) p0.x
    let max_x := rest.foldl (fun a q => max a q.x) p0.x
    let width := wrap32 (max_x - min_x)
    let min_y := rest.foldl (fun a q => min a q.y) p0.y
    let max_y := rest.foldl (fun a q => max a q.y) p0.y
    let height := wrap32 (max_y - min_y)
    if width > 0 ∧ height > 0 then
      if use_avg then
        let n : Int := (input_points.length : Int)
        let avg_x : Int :=
          Int.tdiv (sum32 (input_points.map (fun p => p.x))) n
        let avg_y : Int :=
          Int.tdiv (sum32 (input_points.map (fun p => p.y))) n
        input_points.foldl
          (fun out p =>
            out.push ⟨Int.tdiv (wrap32 (100 * wrap32 (p.x - avg_x))) width,
                      Int.tdiv (wrap32 (100 * wrap32 (p.y - avg_y))) height⟩)
          []
      else
        input_points.foldl
          (fun out p =>
            out.push ⟨Int.tdiv (wrap32 (100 * wrap32 (p.x - min_x))) width,
                      Int.tdiv (wrap32 (100 * wrap32 (p.y - min_y))) height⟩)
          []
    else []

/-- Minimum x coordinate of a nonempty trace, as `normalize_points` computes
it (`iter().map(|p| p.x).min()`). -/
def traceMinX : List Point → Int
  | [] => 0
  | p0 :: rest => rest.foldl (fun a q => min a q.x) p0.x

/-- Maximum x coordinate of a nonempty trace. -/
def traceMaxX : List Point → Int
  | [] => 0
  | p0 :: rest => rest.foldl (fun a q => max a q.x) p0.x

/-- Minimum y coordinate of a nonempty trace. -/
def traceMinY : List Point → Int
  | [] => 0
  | p0 :: rest => rest.foldl (fun a q => min a q.y) p0.y

/-- Maximum y coordinate of a nonempty trace. -/
def traceMaxY : List Point → Int
  | [] => 0
  | p0 :: rest => rest.foldl (fun a q => max a q.y) p0.y

/-- Integer centroid x, as `normalize_points` computes it
(`sum::<i32>() / len`: `i32` sum, toward-zero division). -/
def traceAvgX (ps : List Point) : Int :=
  Int.tdiv (sum32 (ps.map (fun p => p.x))) (ps.length : Int)

/-- Integer centroid y. -/
def traceAvgY (ps : List Point) : Int :=
  Int.tdiv (sum32 (ps.map (fun p => p.y))) (ps.length : Int)

/-- The per-point scaling map of the min-centered branch, in `i32`
arithmetic. -/
def normMinMap (min_x width min_y height : Int) (p : Point) : Point :=
  ⟨Int.tdiv (wrap32 (100 * wrap32 (p.x - min_x))) width,
   Int.tdiv (wrap32 (100 * wrap32 (p.y - min_y))) height⟩

/-- The per-point scaling map of the centroid-centered branch, in `i32`
arithmetic. -/
def normAvgMap (avg_x width avg_y height : Int) (p : Point) : Point :=
  ⟨Int.tdiv (wrap32 (100 * wrap32 (p.x - avg_x))) width,
   Int.tdiv (wrap32 (100 * wrap32 (p.y - avg_y))) height⟩

/-- The `rdev` mouse button type, modelled from the spec with the buttons the
code distinguishes plus an opaque code for the rest. -/
inductive Button where
  | left
  | right
  | middle
  | unknown (code : Nat)
deriving Repr, DecidableEq

/-- The `rdev` key type, modelled from the spec with the seven modifier keys
`grab.rs` recognizes plus an opaque code for every other key. -/
inductive Key where
  | shiftLeft
  | shiftRight
  | controlLeft
  | controlRight
  | metaLeft
  | alt
  | altGr
  | other (code : Nat)
deriving Repr, DecidableEq

/-- The `rdev` event kind sum type, as matched in `grab_event_fn`.
`MouseMove` coordinates are `f64` in `rdev` and are immediately cast to `i32`
in the code; we model them as the cast integers. -/
inductive EventType where
  | mouseMove (x y : Int)
  | buttonPress (b : Button)
  | buttonRelease (b : Button)
  | wheel (delta_x delta_y : Int)
  | keyPress (k : Key)
  | keyRelease (k : Key)
deriving Repr, DecidableEq

/-- The `rdev` event: the kind plus its remaining payload (timestamp and
platform name string), which `grab_event_fn` never inspects or alters. -/
structure Event where
  event_type : EventType
  time : Nat
  name : Option String
deriving Repr, DecidableEq

/-- Modelled from the spec: the mouse-button enum of `event.rs`
(`shape_button` in the config; wheel directions are pseudo-buttons). -/
inductive MouseButton where
  | left
  | right
  | middle
  | wheelUp
  | wheelDown
  | unknown (code : Nat)
deriving Repr, DecidableEq

/-- Modelled from the spec: `MouseButton::to_rdev_event`, the map from the
config's button enum to the `rdev` button it grabs. -/
def MouseButton.to_rdev_event : MouseButton → Button
  | .left => .left
  | .right => .right
  | .middle => .middle
  | .wheelUp => .unknown 0
  | .wheelDown => .unknown 1
  | .unknown c => .unknown (2 + c)

/-- Modelled from the spec: `MouseButton::from_rdev_event`. -/
def MouseButton.from_rdev_event : Button → MouseButton
  | .left => .left
  | .right => .right
  | .middle => .middle
  | .unknown c => .unknown c

/-- Modelled from the spec: `MouseButton::from_rdev_wheel`, identifying the
wheel direction as a pseudo-button from the sign of `delta_y`. -/
def MouseButton.from_rdev_wheel (delta_y : Int) : MouseButton :=
  if delta_y > 0 then .wheelUp else .wheelDown

/-- Screen edge, from `event.rs` (visible in the `config.rs` tests). -/
inductive Edge where
  | top
  | bottom
  | left
  | right
deriving Repr, DecidableEq

/-- Keyboard modifier enum of `event.rs` (visible in the `config.rs` tests),
one per `KeyboardState` flag. -/
inductive KeyboardModifier where
  | shiftLeft
  | shiftRight
  | controlLeft
  | controlRight
  | metaLeft
  | alt
  | altGr
deriving Repr, DecidableEq

/-- `KeyboardState`: independent boolean flags, one per modifier key, exactly
the seven flags `grab_event_fn` mutates. -/
structure KeyboardState where
  shift_left : Bool := false
  shift_right : Bool := false
  control_left : Bool := false
  control_right : Bool := false
  meta_left : Bool := false
  alt : Bool := false
  alt_gr : Bool := false
deriving Repr, DecidableEq

/-- Modelled from the spec: `KeyboardModifier::from_keyboard_state` collects
the set of active modifier flags, in a fixed field order. -/
def KeyboardModifier.from_keyboard_state (ks : KeyboardState) :
    List KeyboardModifier :=
  (if ks.shift_left then [KeyboardModifier.shiftLeft] else []) ++
  (if ks.shift_right then [KeyboardModifier.shiftRight] else []) ++
  (if ks.control_left then [KeyboardModifier.controlLeft] else []) ++
  (if ks.control_right then [KeyboardModifier.controlRight] else []) ++
  (if ks.meta_left then [KeyboardModifier.metaLeft] else []) ++
  (if ks.alt then [KeyboardModifier.alt] else []) ++
  (if ks.alt_gr then [KeyboardModifier.altGr] else [])

/-- `ButtonState`: idle or pressed with the last-pressed `rdev` button. -/
inductive ButtonState where
  | none
  | pressed (b : Button)
deriving Repr, DecidableEq

/-- `PressState` phase tag of a classified event. -/
inductive PressState where
  | press
  | release
deriving Repr, DecidableEq

/-- The classified event handed to the resolver, as constructed in
`grab.rs` (`button`, `edges`, `modifiers`, `event_type`, `shape_angles`,
`shape_xy`). -/
structure ClickEvent where
  button : MouseButton
  edges : List Edge
  modifiers : List KeyboardModifier
  event_type : PressState
  shape_angles : List Angle
  shape_xy : PointHistory
deriving Repr, DecidableEq

/-- Modelled from the spec: the binding pattern stored in the config file
(`binding.rs`/`event.rs` are not among the given sources): a target pattern
with the input traces `shapes_xy` and the derived signatures `shapes_angles`. -/
structure BindingEvent where
  button : MouseButton
  edges : List Edge
  modifiers : List KeyboardModifier
  event_type : PressState
  shapes_angles : List (List Angle)
  shapes_xy : List (List Point)
deriving Repr, DecidableEq

/-- Modelled from the spec: a binding is a pattern, a command and a comment
(`binding.rs` is not among the given sources; the shape is visible in the
`config.rs` tests). -/
structure Binding where
  event : BindingEvent
  cmd : List String
  comment : String
deriving Repr, DecidableEq

/-- `config.rs::Config`: the designated shape button plus the bindings. -/
structure Config where
  shape_button : MouseButton
  bindings : List Binding
deriving Repr, DecidableEq

/-- The relevant argument flag (`args.no_listen`) read by `grab_event_fn`. -/
structure Args where
  no_listen : Bool
deriving Repr, DecidableEq

/-- The mutable classifier state shared across `grab_event_fn` calls:
point history, button state, keyboard state and last known cursor position,
each behind its own mutex in the code, modelled as one explicit record. -/
structure GrabState where
  point_history : PointHistory
  button_state : ButtonState
  keyboard_state : KeyboardState
  last_point : Point
deriving Repr, DecidableEq

/-- The result of one `grab_event_fn` call in the explicit-state model:
the value returned to the OS hook, the updated shared state, and the list of
classified events passed to `process_event_fn` during the call (in order). -/
structure GrabResult where
  output : Option Event
  state : GrabState
  calls : List ClickEvent
deriving Repr, DecidableEq

/-- The `KeyPress`/`KeyRelease` match of `grab_event_fn`: set (`pressed =
true`) or clear the flag of a recognized modifier key, ignore every other
key. -/
def record_key (ks : KeyboardState) (k : Key) (pressed : Bool) :
    KeyboardState :=
  match k with
  | .shiftLeft => { ks with shift_left := pressed }
  | .shiftRight => { ks with shift_right := pressed }
  | .controlLeft => { ks with control_left := pressed }
  | .controlRight => { ks with control_right := pressed }
  | .metaLeft => { ks with meta_left := pressed }
  | .alt => { ks with alt := pressed }
  | .altGr => { ks with alt_gr := pressed }
  | .other _ => ks

/-- `grab.rs::grab_event_fn`, embedded with explicit state passing.
`edges_from_pos` (display-geometry dependent, external) and the resolver
`process_event_fn` are parameters; the config snapshot read during the call
is `cfg`. Mutex lock/unlock granularity is dissolved into sequential reads
and writes in program order. -/
def grab_event_fn (edges_from_pos : Int → Int → List Edge)
    (process_event_fn : Config → ClickEvent → Args → Bool)
    (cfg : Config) (args : Args) (event : Event) (s : GrabState) :
    GrabResult :=
  match event.event_type with
  | .mouseMove x y =>
    let last_point := if args.no_listen then (⟨x, y⟩ : Point) else s.last_point
    let histo :=
      match s.button_state with
      | .pressed pressed_btn =>
        if cfg.shape_button.to_rdev_event = pressed_btn then
          if ¬ s.point_history.is_full then
            s.point_history.push last_point
          else
            s.point_history
        else s.point_history
      | .none => s.point_history
    ⟨some event,
     { s with last_point := last_point, point_history := histo }, []⟩
  | .buttonPress pressed_btn =>
    let s₁ := { s with button_state := ButtonState.pressed pressed_btn }
    let last_point_clone := s.last_point
    let click_event : ClickEvent :=
      { button := MouseButton.from_rdev_event pressed_btn
        edges := edges_from_pos last_point_clone.x last_point_clone.y
        modifiers := KeyboardModifier.from_keyboard_state s.keyboard_state
        event_type := PressState.press
        shape_angles := []
        shape_xy := [] }
    if cfg.shape_button.to_rdev_event = pressed_btn then
      let histo :=
        if ¬ s₁.point_history.is_full then
          s₁.point_history.push last_point_clone
        else
          s₁.point_history
      let s₂ := { s₁ with point_history := histo }
      if histo.length < 10 then
        let _ := process_event_fn cfg click_event args
        ⟨none, s₂, [click_event]⟩
      else
        ⟨none, s₂, []⟩
    else
      if process_event_fn cfg click_event args then
        ⟨some event, s₁, [click_event]⟩
      else
        ⟨none, s₁, [click_event]⟩
  | .buttonRelease btn =>
    let angles := points_to_angles s.point_history
    let last_point_clone := s.last_point
    let click_event : ClickEvent :=
      { button := MouseButton.from_rdev_event btn
        edges := edges_from_pos last_point_clone.x last_point_clone.y
        modifiers := KeyboardModifier.from_keyboard_state s.keyboard_state
        event_type := PressState.release
        shape_angles := angles
        shape_xy := s.point_history }
    let s₁ := { s with point_history := [], button_state := ButtonState.none }
    if process_event_fn cfg click_event args then
      ⟨some event, s₁, [click_event]⟩
    else
      ⟨none, s₁, [click_event]⟩
  | .wheel _ delta_y =>
    let last_point_clone := s.last_point
    let click_event : ClickEvent :=
      { button := MouseButton.from_rdev_wheel delta_y
        edges := edges_from_pos last_point_clone.x last_point_clone.y
        modifiers := KeyboardModifier.from_keyboard_state s.keyboard_state
        event_type := PressState.release
        shape_angles := []
        shape_xy := [] }
    if process_event_fn cfg click_event args then
      ⟨some event, s, [click_event]⟩
    else
      ⟨none, s, [click_event]⟩
  | .keyPress k =>
    ⟨some event, { s with keyboard_state := record_key s.keyboard_state k true },
     []⟩
  | .keyRelease k =>
    ⟨some event,
     { s with keyboard_state := record_key s.keyboard_state k false }, []⟩

/-- `config.rs::load_from_str` after the external serde parse: for every
binding, `shapes_angles` is overwritten with `points_to_angles` of each trace
in `shapes_xy`, in order. -/
def derive_shapes_angles (config : Config) : Config :=
  { config with
    bindings := config.bindings.map fun b =>
      { b with
        event :=
          { b.event with
            shapes_angles :=
              b.event.shapes_xy.map fun shape_xy =>
                points_to_angles shape_xy } } }

/-- `config.rs::load_from_str`, with the external `serde_json::from_str` call
abstracted by its result: `none` models a parse error, on which the code
calls `.unwrap()` and panics (modelled as `none` out). -/
def load_from_str (parsed : Option Config) : Option Config :=
  parsed.map derive_shapes_angles

/-- The outcome of one reload iteration of the `config.rs::watch_config`
thread loop: the in-memory shared config afterwards, and whether the thread
panicked during the iteration. -/
structure WatchStepResult where
  config : Config
  panicked : Bool
deriving Repr, DecidableEq

/-- One write-close reload iteration of `config.rs::watch_config`:
the thread runs `*config.lock().unwrap() = get_config(&config_path)`, and
`get_config → load → load_from_str` unwraps the read+parse result, so a file
that fails to read or parse panics the thread before the assignment is made
(Rust evaluates the right-hand side of the assignment first), leaving the
shared config unchanged. `parsed` is the external read+parse result of the
replacement file (`none` = failure). -/
def watch_config_reload (current : Config) (parsed : Option Config) :
    WatchStepResult :=
  match load_from_str parsed with
  | some newConfig => ⟨newConfig, false⟩
  | none => ⟨current, true⟩

/-- C6: for every point trace `P`, `points_to_angles P` (applied at button
release in `grab_event_fn` and per trace at configuration load) has length
exactly `max (0, len P − 1)`: one angle per consecutive point pair. -/
theorem points_to_angles_length (ps : List Point) :
    (points_to_angles ps).length = ps.length - 1 ∧
    ((points_to_angles ps).length : Int) = max 0 ((ps.length : Int) - 1) := by
  have h : (points_to_angles ps).length = ps.length - 1 := by
    simp [points_to_angles, List.length_zipWith, List.length_tail]
  refine ⟨h, ?_⟩
  rw [h]
  omega

/-- `wrap32` fixes 0. -/
theorem wrap32_zero : wrap32 0 = 0 := by decide

/-- `wrap32` is the identity on the `i32` range. -/
theorem wrap32_eq_self {z : Int} (h1 : -(2 ^ 31) ≤ z) (h2 : z < 2 ^ 31) :
    wrap32 z = z := by
  have h0 : (0 : Int) ≤ z + 2 ^ 31 := by omega
  have hlt : z + 2 ^ 31 < 2 ^ 32 := by omega
  simp only [wrap32]
  rw [Int.emod_eq_of_lt h0 hlt]
  omega

/-- The running minimum of a fold never exceeds its initial value. -/
theorem foldl_min_le_init (f : Point → Int) :
    ∀ (l : List Point) (a : Int), l.foldl (fun a q => min a (f q)) a ≤ a := by
  intro l
  induction l with
  | nil => intro a; exact le_refl a
  | cons q l ih =>
    intro a
    simp only [List.foldl_cons]
    exact le_trans (ih (min a (f q))) (min_le_left a (f q))

/-- The running maximum of a fold is at least its initial value. -/
theorem le_foldl_max (f : Point → Int) :
    ∀ (l : List Point) (a : Int), a ≤ l.foldl (fun a q => max a (f q)) a := by
  intro l
  induction l with
  | nil => intro a; exact le_refl a
  | cons q l ih =>
    intro a
    simp only [List.foldl_cons]
    exact le_trans (le_max_left a (f q)) (ih (max a (f q)))

/-- C4: on a trace whose bounding box has zero width or zero height on either
axis (the empty and single-point traces included), `normalize_points` returns
the empty sequence, and the scaling branch is reached only when both spans are
strictly positive (so no division by a zero span ever happens). -/
theorem normalize_points_degenerate (ps : PointHistory) (use_avg : Bool) :
    ((ps.length ≤ 1 ∨ traceMaxX ps - traceMinX ps = 0 ∨
        traceMaxY ps - traceMinY ps = 0) →
      normalize_points ps use_avg = []) ∧
    (normalize_points ps use_avg ≠ [] →
      0 < traceMaxX ps - traceMinX ps ∧ 0 < traceMaxY ps - traceMinY ps) := by
  constructor
  · intro h
    cases ps with
    | nil => rfl
    | cons p0 rest =>
      have hspan : traceMaxX (p0 :: rest) - traceMinX (p0 :: rest) = 0 ∨
          traceMaxY (p0 :: rest) - traceMinY (p0 :: rest) = 0 := by
        rcases h with h | h | h
        · have : rest = [] := by
            cases rest with
            | nil => rfl
            | cons q qs => simp at h
          subst this
          left
          simp [traceMaxX, traceMinX]
        · exact Or.inl h
        · exact Or.inr h
      simp only [traceMaxX, traceMinX, traceMaxY, traceMinY] at hspan
      simp only [normalize_points]
      rw [if_neg]
      intro hpos
      obtain ⟨h1, h2⟩ := hpos
      rcases hspan with h0 | h0
      · rw [h0, wrap32_zero] at h1
        exact lt_irrefl 0 h1
      · rw [h0, wrap32_zero] at h2
        exact lt_irrefl 0 h2
  · intro hne
    cases ps with
    | nil => simp [normalize_points] at hne
    | cons p0 rest =>
      simp only [normalize_points] at hne
      by_cases hpos :
          wrap32 (rest.foldl (fun a q => max a q.x) p0.x -
              rest.foldl (fun a q => min a q.x) p0.x) > 0 ∧
            wrap32 (rest.foldl (fun a q => max a q.y) p0.y -
              rest.foldl (fun a q => min a q.y) p0.y) > 0
      · obtain ⟨h1, h2⟩ := hpos
        have h340 : rest.foldl (fun a q => min a q.x) p0.x ≤
            rest.foldl (fun a q => max a q.x) p0.x :=
          le_trans (foldl_min_le_init (fun p => p.x) rest p0.x)
            (le_foldl_max (fun p => p.x) rest p0.x)
        have h350 : rest.foldl (fun a q => min a q.y) p0.y ≤
            rest.foldl (fun a q => max a q.y) p0.y :=
          le_trans (foldl_min_le_init (fun p => p.y) rest p0.y)
            (le_foldl_max (fun p => p.y) rest p0.y)
        constructor
        · simp only [traceMaxX, traceMinX]
          by_contra hle
          have hsp0 : rest.foldl (fun a q => max a q.x) p0.x -
              rest.foldl (fun a q => min a q.x) p0.x = 0 := by omega
          rw [hsp0, wrap32_zero] at h1
          exact lt_irrefl 0 h1
        · simp only [traceMaxY, traceMinY]
          by_contra hle
          have hsp0 : rest.foldl (fun a q => max a q.y) p0.y -
              rest.foldl (fun a q => min a q.y) p0.y = 0 := by omega
          rw [hsp0, wrap32_zero] at h2
          exact lt_irrefl 0 h2
      · rw [if_neg hpos] at hne
        exact absurd rfl hne

/-- Witness for C4: a two-point vertical trace (zero width) normalizes to the
empty sequence. -/
theorem normalize_points_degenerate_witness :
    normalize_points [⟨0, 0⟩, ⟨0, 5⟩] false = [] :=
  (normalize_points_degenerate [⟨0, 0⟩, ⟨0, 5⟩] false).1
    (Or.inr (Or.inl (by decide)))

/-- A push below capacity appends. -/
theorem push_below_cap (h : PointHistory) (p : Point)
    (hlt : h.length < pointHistoryCap) : h.push p = h ++ [p] := by
  have hn : ¬ pointHistoryCap ≤ h.length := by omega
  simp [PointHistory.push, PointHistory.is_full, hn]

/-- Folding capacity-guarded pushes of mapped points over a list that fits
below capacity is the same as appending the mapped list. -/
theorem foldl_push_eq_map (f : Point → Point) :
    ∀ (ps : List Point) (acc : PointHistory),
      acc.length + ps.length ≤ pointHistoryCap →
      ps.foldl (fun out p => out.push (f p)) acc = acc ++ ps.map f := by
  intro ps
  induction ps with
  | nil => intro acc _; simp
  | cons p rest ih =>
    intro acc hle
    simp only [List.foldl_cons]
    rw [push_below_cap acc (f p) (by simp at hle; omega)]
    rw [ih (acc ++ [f p]) (by simp at hle ⊢; omega)]
    simp


/-- Counterexample for C5 as stated: the `i32`-range trace
`(0,0),(30000000,1),(0,2)` has strictly positive bounding-box spans on both
axes, yet the point with maximum x (index 1) is mapped to output x = −43,
not 100, because `100 * 30000000` overflows `i32`; positive spans alone do
not give the claimed scaling. -/
theorem normalize_points_scaling_counterexample :
    0 < traceMaxX [⟨0, 0⟩, ⟨30000000, 1⟩, ⟨0, 2⟩] -
        traceMinX [⟨0, 0⟩, ⟨30000000, 1⟩, ⟨0, 2⟩] ∧
    0 < traceMaxY [⟨0, 0⟩, ⟨30000000, 1⟩, ⟨0, 2⟩] -
        traceMinY [⟨0, 0⟩, ⟨30000000, 1⟩, ⟨0, 2⟩] ∧
    ([⟨0, 0⟩, ⟨30000000, 1⟩, ⟨0, 2⟩] : List Point).length ≤
      pointHistoryCap ∧
    ([⟨0, 0⟩, ⟨30000000, 1⟩, ⟨0, 2⟩] : List Point)[1]? =
      some ⟨30000000, 1⟩ ∧
    (⟨30000000, 1⟩ : Point).x =
      traceMaxX [⟨0, 0⟩, ⟨30000000, 1⟩, ⟨0, 2⟩] ∧
    Option.map Point.x
        ((normalize_points [⟨0, 0⟩, ⟨30000000, 1⟩, ⟨0, 2⟩] false)[1]?) =
      some (-43) ∧
    (-43 : Int) ≠ 100 := by
  decide

/-- C5 (amended): on a trace with strictly positive bounding-box spans that
fits in a `PointHistory` and whose spans scaled by 100 stay within `i32`
(so the per-axis scaling does not overflow), min-based normalization is the
pointwise map scaling each axis by `100 / span` after subtracting the axis
minimum — points at the axis minimum land on 0 and points at the axis
maximum land on 100 — and average-based normalization is the same map with
the integer centroid as center, which sends the centroid itself to
`(0, 0)`. -/
theorem normalize_points_scaling (ps : PointHistory)
    (hcap : ps.length ≤ pointHistoryCap)
    (hw : 0 < traceMaxX ps - traceMinX ps)
    (hh : 0 < traceMaxY ps - traceMinY ps)
    (hx : 100 * (traceMaxX ps - traceMinX ps) < 2 ^ 31)
    (hy : 100 * (traceMaxY ps - traceMinY ps) < 2 ^ 31) :
    normalize_points ps false =
      ps.map (normMinMap (traceMinX ps) (traceMaxX ps - traceMinX ps)
        (traceMinY ps) (traceMaxY ps - traceMinY ps)) ∧
    (∀ p ∈ ps, p.x = traceMinX ps →
      (normMinMap (traceMinX ps) (traceMaxX ps - traceMinX ps)
        (traceMinY ps) (traceMaxY ps - traceMinY ps) p).x = 0) ∧
    (∀ p ∈ ps, p.x = traceMaxX ps →
      (normMinMap (traceMinX ps) (traceMaxX ps - traceMinX ps)
        (traceMinY ps) (traceMaxY ps - traceMinY ps) p).x = 100) ∧
    (∀ p ∈ ps, p.y = traceMinY ps →
      (normMinMap (traceMinX ps) (traceMaxX ps - traceMinX ps)
        (traceMinY ps) (traceMaxY ps - traceMinY ps) p).y = 0) ∧
    (∀ p ∈ ps, p.y = traceMaxY ps →
      (normMinMap (traceMinX ps) (traceMaxX ps - traceMinX ps)
        (traceMinY ps) (traceMaxY ps - traceMinY ps) p).y = 100) ∧
    normalize_points ps true =
      ps.map (normAvgMap (traceAvgX ps) (traceMaxX ps - traceMinX ps)
        (traceAvgY ps) (traceMaxY ps - traceMinY ps)) ∧
    normAvgMap (traceAvgX ps) (traceMaxX ps - traceMinX ps)
        (traceAvgY ps) (traceMaxY ps - traceMinY ps)
        ⟨traceAvgX ps, traceAvgY ps⟩ = ⟨0, 0⟩ := by
  have hw' : traceMaxX ps - traceMinX ps ≠ 0 := by omega
  have hh' : traceMaxY ps - traceMinY ps ≠ 0 := by omega
  have hwx : wrap32 (traceMaxX ps - traceMinX ps) =
      traceMaxX ps - traceMinX ps :=
    wrap32_eq_self (by omega) (by omega)
  have hwy : wrap32 (traceMaxY ps - traceMinY ps) =
      traceMaxY ps - traceMinY ps :=
    wrap32_eq_self (by omega) (by omega)
  have hmx : wrap32 (100 * (traceMaxX ps - traceMinX ps)) =
      100 * (traceMaxX ps - traceMinX ps) :=
    wrap32_eq_self (by omega) hx
  have hmy : wrap32 (100 * (traceMaxY ps - traceMinY ps)) =
      100 * (traceMaxY ps - traceMinY ps) :=
    wrap32_eq_self (by omega) hy
  refine ⟨?_, ?_, ?_, ?_, ?_, ?_, ?_⟩
  · cases ps with
    | nil => simp [traceMaxX, traceMinX] at hw
    | cons p0 rest =>
      simp only [traceMinX, traceMaxX, traceMinY, traceMaxY] at hw hh ⊢
      simp only [traceMinX, traceMaxX, traceMinY, traceMaxY] at hwx hwy
      simp only [normalize_points]
      rw [hwx, hwy]
      rw [if_pos ⟨hw, hh⟩]
      simp only [Bool.false_eq_true, if_false]
      have := foldl_push_eq_map
        (normMinMap (rest.foldl (fun a q => min a q.x) p0.x)
          (rest.foldl (fun a q => max a q.x) p0.x -
            rest.foldl (fun a q => min a q.x) p0.x)
          (rest.foldl (fun a q => min a q.y) p0.y)
          (rest.foldl (fun a q => max a q.y) p0.y -
            rest.foldl (fun a q => min a q.y) p0.y))
        (p0 :: rest) [] (by simpa using hcap)
      simpa [normMinMap] using this
  · intro p _ hpx
    simp [normMinMap, hpx, wrap32_zero]
  · intro p _ hpx
    have h1 : p.x - traceMinX ps = traceMaxX ps - traceMinX ps := by omega
    simp only [normMinMap, h1]
    rw [hwx, hmx]
    exact Int.mul_tdiv_cancel 100 hw'
  · intro p _ hpy
    simp [normMinMap, hpy, wrap32_zero]
  · intro p _ hpy
    have h1 : p.y - traceMinY ps = traceMaxY ps - traceMinY ps := by omega
    simp only [normMinMap, h1]
    rw [hwy, hmy]
    exact Int.mul_tdiv_cancel 100 hh'
  · cases ps with
    | nil => simp [traceMaxX, traceMinX] at hw
    | cons p0 rest =>
      simp only [traceMinX, traceMaxX, traceMinY, traceMaxY, traceAvgX,
        traceAvgY] at hw hh hwx hwy ⊢
      simp only [normalize_points]
      rw [hwx, hwy]
      rw [if_pos ⟨hw, hh⟩]
      simp only [if_true]
      have := foldl_push_eq_map
        (normAvgMap
          (Int.tdiv (sum32 ((p0 :: rest).map (fun p => p.x)))
            ((p0 :: rest).length : Int))
          (rest.foldl (fun a q => max a q.x) p0.x -
            rest.foldl (fun a q => min a q.x) p0.x)
          (Int.tdiv (sum32 ((p0 :: rest).map (fun p => p.y)))
            ((p0 :: rest).length : Int))
          (rest.foldl (fun a q => max a q.y) p0.y -
            rest.foldl (fun a q => min a q.y) p0.y))
        (p0 :: rest) [] (by simpa using hcap)
      simpa [normAvgMap] using this
  · simp [normAvgMap, wrap32_zero]

/-- Witness for C5 (amended): the square trace `(0,0),(2,0),(2,2),(0,2)` has
spans 2 on both axes and `100 * 2` is far below `2^31`; the theorem applies
and min-based normalization maps it pointwise. -/
theorem normalize_points_scaling_witness :
    normalize_points [⟨0, 0⟩, ⟨2, 0⟩, ⟨2, 2⟩, ⟨0, 2⟩] false =
      ([⟨0, 0⟩, ⟨2, 0⟩, ⟨2, 2⟩, ⟨0, 2⟩] : List Point).map
        (normMinMap (traceMinX [⟨0, 0⟩, ⟨2, 0⟩, ⟨2, 2⟩, ⟨0, 2⟩])
          (traceMaxX [⟨0, 0⟩, ⟨2, 0⟩, ⟨2, 2⟩, ⟨0, 2⟩] -
            traceMinX [⟨0, 0⟩, ⟨2, 0⟩, ⟨2, 2⟩, ⟨0, 2⟩])
          (traceMinY [⟨0, 0⟩, ⟨2, 0⟩, ⟨2, 2⟩, ⟨0, 2⟩])
          (traceMaxY [⟨0, 0⟩, ⟨2, 0⟩, ⟨2, 2⟩, ⟨0, 2⟩] -
            traceMinY [⟨0, 0⟩, ⟨2, 0⟩, ⟨2, 2⟩, ⟨0, 2⟩])) :=
  (normalize_points_scaling [⟨0, 0⟩, ⟨2, 0⟩, ⟨2, 2⟩, ⟨0, 2⟩]
    (by decide) (by decide) (by decide) (by decide) (by decide)).1


/-- C2: on a press of the configured shape button, `grab_event_fn` seeds the
point history with the last known position (pushing only when not full),
passes the press-phase classified event to the resolver exactly when the
seeded history holds fewer than 10 points, and returns `none` (suppressing
the OS event) whatever the resolver returns. -/
theorem grab_button_press_shape
    (E : Int → Int → List Edge) (R : Config → ClickEvent → Args → Bool)
    (cfg : Config) (args : Args) (event : Event) (s : GrabState) (b : Button)
    (hev : event.event_type = EventType.buttonPress b)
    (hshape : cfg.shape_button.to_rdev_event = b) :
    (grab_event_fn E R cfg args event s).output = none ∧
    (grab_event_fn E R cfg args event s).state.point_history =
      (if ¬ s.point_history.is_full then s.point_history.push s.last_point
       else s.point_history) ∧
    ((if ¬ s.point_history.is_full then s.point_history.push s.last_point
       else s.point_history).length < 10 →
      (grab_event_fn E R cfg args event s).calls =
        [{ button := MouseButton.from_rdev_event b
           edges := E s.last_point.x s.last_point.y
           modifiers := KeyboardModifier.from_keyboard_state s.keyboard_state
           event_type := PressState.press
           shape_angles := []
           shape_xy := [] }]) ∧
    (¬ (if ¬ s.point_history.is_full then s.point_history.push s.last_point
        else s.point_history).length < 10 →
      (grab_event_fn E R cfg args event s).calls = []) := by
  obtain ⟨et, t, n⟩ := event
  simp only at hev
  subst hev
  by_cases hlen :
      (if s.point_history.is_full = false then
        s.point_history.push s.last_point
       else s.point_history).length < 10 <;>
    simp [grab_event_fn, hshape, hlen]

/-- Witness for C2: with shape button Right, a Right press from an empty
history is suppressed (returns `none`). -/
theorem grab_button_press_shape_witness :
    (grab_event_fn (fun _ _ => []) (fun _ _ _ => false)
      ⟨MouseButton.right, []⟩ ⟨true⟩
      ⟨EventType.buttonPress Button.right, 0, none⟩
      ⟨[], ButtonState.none, {}, ⟨5, 5⟩⟩).output = none :=
  (grab_button_press_shape (fun _ _ => []) (fun _ _ _ => false)
    ⟨MouseButton.right, []⟩ ⟨true⟩
    ⟨EventType.buttonPress Button.right, 0, none⟩
    ⟨[], ButtonState.none, {}, ⟨5, 5⟩⟩ Button.right rfl rfl).1

/-- C3: on any button release, `grab_event_fn` hands the resolver exactly one
release-phase classified event carrying the angle signature of the
accumulated history (empty when the history is empty, since the signature of
an empty trace is empty) and the raw accumulated trace, leaves the point
history empty and the button state `None`, and propagates the original event
exactly when the resolver returns `true`. -/
theorem grab_button_release
    (E : Int → Int → List Edge) (R : Config → ClickEvent → Args → Bool)
    (cfg : Config) (args : Args) (event : Event) (s : GrabState) (b : Button)
    (hev : event.event_type = EventType.buttonRelease b) :
    (grab_event_fn E R cfg args event s).calls =
      [{ button := MouseButton.from_rdev_event b
         edges := E s.last_point.x s.last_point.y
         modifiers := KeyboardModifier.from_keyboard_state s.keyboard_state
         event_type := PressState.release
         shape_angles := points_to_angles s.point_history
         shape_xy := s.point_history }] ∧
    (s.point_history = [] → points_to_angles s.point_history = []) ∧
    (grab_event_fn E R cfg args event s).state.point_history = [] ∧
    (grab_event_fn E R cfg args event s).state.button_state =
      ButtonState.none ∧
    ((grab_event_fn E R cfg args event s).output = some event ↔
      R cfg
        { button := MouseButton.from_rdev_event b
          edges := E s.last_point.x s.last_point.y
          modifiers := KeyboardModifier.from_keyboard_state s.keyboard_state
          event_type := PressState.release
          shape_angles := points_to_angles s.point_history
          shape_xy := s.point_history }
        args = true) := by
  obtain ⟨et, t, n⟩ := event
  simp only at hev
  subst hev
  refine ⟨?_, ?_, ?_, ?_, ?_⟩
  · simp [grab_event_fn]
    split <;> rfl
  · intro h
    simp [h, points_to_angles]
  · simp [grab_event_fn]
    split <;> rfl
  · simp [grab_event_fn]
    split <;> rfl
  · simp only [grab_event_fn]
    split
    · rename_i hr
      simp [hr]
    · rename_i hr
      simp at hr
      simp [hr]

/-- Witness for C3: releasing Left with history `[(10,10),(20,10),(20,20)]`
and an allow-all resolver clears the history. -/
theorem grab_button_release_witness :
    (grab_event_fn (fun _ _ => []) (fun _ _ _ => true)
      ⟨MouseButton.right, []⟩ ⟨true⟩
      ⟨EventType.buttonRelease Button.left, 0, none⟩
      ⟨[⟨10, 10⟩, ⟨20, 10⟩, ⟨20, 20⟩], ButtonState.pressed Button.right, {},
        ⟨20, 20⟩⟩).state.point_history = [] :=
  (grab_button_release (fun _ _ => []) (fun _ _ _ => true)
    ⟨MouseButton.right, []⟩ ⟨true⟩
    ⟨EventType.buttonRelease Button.left, 0, none⟩
    ⟨[⟨10, 10⟩, ⟨20, 10⟩, ⟨20, 20⟩], ButtonState.pressed Button.right, {},
      ⟨20, 20⟩⟩ Button.left rfl).2.2.1

/-- C7: from any prior state, a button press of `b` leaves the button state
`Pressed b` (overwriting, never stacking), and a button release of any button
leaves it `None`. -/
theorem button_state_last_press_wins
    (E : Int → Int → List Edge) (R : Config → ClickEvent → Args → Bool)
    (cfg : Config) (args : Args) (s : GrabState) (b : Button) (t : Nat)
    (n : Option String) :
    (grab_event_fn E R cfg args ⟨EventType.buttonPress b, t, n⟩
        s).state.button_state = ButtonState.pressed b ∧
    (grab_event_fn E R cfg args ⟨EventType.buttonRelease b, t, n⟩
        s).state.button_state = ButtonState.none := by
  refine ⟨?_, ?_⟩ <;> simp only [grab_event_fn] <;> (repeat' split) <;> rfl

/-- Projects the `KeyboardState` flag named by a modifier. -/
def getFlag (ks : KeyboardState) : KeyboardModifier → Bool
  | .shiftLeft => ks.shift_left
  | .shiftRight => ks.shift_right
  | .controlLeft => ks.control_left
  | .controlRight => ks.control_right
  | .metaLeft => ks.meta_left
  | .alt => ks.alt
  | .altGr => ks.alt_gr

/-- The modifier flag a key controls in `grab_event_fn`, if any. -/
def keyModifier : Key → Option KeyboardModifier
  | .shiftLeft => some .shiftLeft
  | .shiftRight => some .shiftRight
  | .controlLeft => some .controlLeft
  | .controlRight => some .controlRight
  | .metaLeft => some .metaLeft
  | .alt => some .alt
  | .altGr => some .altGr
  | .other _ => none

/-- Number of modifier flags on which two keyboard states differ. -/
def diffCount (a b : KeyboardState) : Nat :=
  (if a.shift_left = b.shift_left then 0 else 1) +
  (if a.shift_right = b.shift_right then 0 else 1) +
  (if a.control_left = b.control_left then 0 else 1) +
  (if a.control_right = b.control_right then 0 else 1) +
  (if a.meta_left = b.meta_left then 0 else 1) +
  (if a.alt = b.alt then 0 else 1) +
  (if a.alt_gr = b.alt_gr then 0 else 1)

/-- C8: a key press (release) event only applies `record_key` with `true`
(`false`) to the keyboard state, leaving point history, button state and last
position untouched, making no resolver call and always propagating the event;
`record_key` changes at most one modifier flag — exactly the recognized
key's flag, set to the pressed value, all others preserved — and is the
identity for unrecognized keys. -/
theorem grab_key_events
    (E : Int → Int → List Edge) (R : Config → ClickEvent → Args → Bool)
    (cfg : Config) (args : Args) (s : GrabState) (k : Key) (t : Nat)
    (n : Option String) :
    grab_event_fn E R cfg args ⟨EventType.keyPress k, t, n⟩ s =
      ⟨some ⟨EventType.keyPress k, t, n⟩,
       { s with keyboard_state := record_key s.keyboard_state k true }, []⟩ ∧
    grab_event_fn E R cfg args ⟨EventType.keyRelease k, t, n⟩ s =
      ⟨some ⟨EventType.keyRelease k, t, n⟩,
       { s with keyboard_state := record_key s.keyboard_state k false },
       []⟩ ∧
    (∀ pressed, diffCount (record_key s.keyboard_state k pressed)
        s.keyboard_state ≤ 1) ∧
    (∀ pressed m, keyModifier k = some m →
      getFlag (record_key s.keyboard_state k pressed) m = pressed ∧
      ∀ m', m' ≠ m → getFlag (record_key s.keyboard_state k pressed) m' =
        getFlag s.keyboard_state m') ∧
    (keyModifier k = none →
      ∀ pressed, record_key s.keyboard_state k pressed = s.keyboard_state) := by
  refine ⟨rfl, rfl, ?_, ?_, ?_⟩
  · intro pressed
    cases k <;> simp [record_key, diffCount] <;> split <;> omega
  · intro pressed m hm
    cases k <;> simp [keyModifier] at hm <;> subst hm <;>
      refine ⟨by simp [record_key, getFlag], ?_⟩ <;>
      intro m' hne <;> cases m' <;> simp_all [record_key, getFlag]
  · intro h pressed
    cases k <;> first
      | rfl
      | exact absurd h (by simp [keyModifier])

/-- Witness for C8: pressing left shift from the all-clear keyboard state
sets the left-shift flag. -/
theorem grab_key_events_witness :
    getFlag (record_key {} Key.shiftLeft true) KeyboardModifier.shiftLeft =
      true :=
  ((grab_key_events (fun _ _ => []) (fun _ _ _ => false)
      ⟨MouseButton.right, []⟩ ⟨true⟩ ⟨[], ButtonState.none, {}, ⟨0, 0⟩⟩
      Key.shiftLeft 0 none).2.2.2.1 true KeyboardModifier.shiftLeft rfl).1

/-- C10: every call of `grab_event_fn` returns either `none` or the received
event unchanged (payload included), makes at most one resolver call, and
makes none on pointer-move, key-press or key-release events. -/
theorem grab_event_frame
    (E : Int → Int → List Edge) (R : Config → ClickEvent → Args → Bool)
    (cfg : Config) (args : Args) (event : Event) (s : GrabState) :
    ((grab_event_fn E R cfg args event s).output = none ∨
      (grab_event_fn E R cfg args event s).output = some event) ∧
    (grab_event_fn E R cfg args event s).calls.length ≤ 1 ∧
    (∀ x y, event.event_type = EventType.mouseMove x y →
      (grab_event_fn E R cfg args event s).calls = []) ∧
    (∀ k, event.event_type = EventType.keyPress k →
      (grab_event_fn E R cfg args event s).calls = []) ∧
    (∀ k, event.event_type = EventType.keyRelease k →
      (grab_event_fn E R cfg args event s).calls = []) := by
  obtain ⟨et, t, n⟩ := event
  cases et <;> simp [grab_event_fn] <;> (repeat' split) <;> simp

/-- Witness for C10: a pointer-move event makes no resolver call. -/
theorem grab_event_frame_witness :
    (grab_event_fn (fun _ _ => []) (fun _ _ _ => true)
      ⟨MouseButton.right, []⟩ ⟨true⟩ ⟨EventType.mouseMove 3 4, 0, none⟩
      ⟨[], ButtonState.none, {}, ⟨0, 0⟩⟩).calls = [] :=
  (grab_event_frame (fun _ _ => []) (fun _ _ _ => true)
    ⟨MouseButton.right, []⟩ ⟨true⟩ ⟨EventType.mouseMove 3 4, 0, none⟩
    ⟨[], ButtonState.none, {}, ⟨0, 0⟩⟩).2.2.1 3 4 rfl

/-- C9: after a successful `load_from_str`, every binding's `shapes_angles`
is `points_to_angles` of each trace of its `shapes_xy`, in order (so an empty
`shapes_xy` — including the serde default for an absent field — yields an
empty `shapes_angles`). -/
theorem load_from_str_derives_angles (parsed : Option Config) (c : Config)
    (b : Binding) (hload : load_from_str parsed = some c)
    (hb : b ∈ c.bindings) :
    b.event.shapes_angles = b.event.shapes_xy.map points_to_angles ∧
    (b.event.shapes_xy = [] → b.event.shapes_angles = []) := by
  cases parsed with
  | none => simp [load_from_str] at hload
  | some c0 =>
    have hload' : derive_shapes_angles c0 = c := by
      simpa [load_from_str] using hload
    subst hload'
    simp only [derive_shapes_angles, List.mem_map] at hb
    obtain ⟨b0, _, rfl⟩ := hb
    constructor
    · rfl
    · intro hxy
      simp only at hxy
      simp [hxy]

/-- Witness for C9: loading a config with one binding whose pattern has the
single trace `[(0,1),(2,3)]` derives the matching one-angle signature. -/
theorem load_from_str_derives_angles_witness :
    (Binding.mk
      ⟨MouseButton.left, [Edge.top, Edge.left],
        [KeyboardModifier.controlLeft], PressState.press,
        [[⟨2, 2⟩]], [[⟨0, 1⟩, ⟨2, 3⟩]]⟩
      ["xlogo"] "").event.shapes_angles =
      ((Binding.mk
        ⟨MouseButton.left, [Edge.top, Edge.left],
          [KeyboardModifier.controlLeft], PressState.press,
          [[⟨2, 2⟩]], [[⟨0, 1⟩, ⟨2, 3⟩]]⟩
        ["xlogo"] "").event.shapes_xy).map points_to_angles :=
  (load_from_str_derives_angles
    (some ⟨MouseButton.right,
      [Binding.mk
        ⟨MouseButton.left, [Edge.top, Edge.left],
          [KeyboardModifier.controlLeft], PressState.press,
          [], [[⟨0, 1⟩, ⟨2, 3⟩]]⟩
        ["xlogo"] ""]⟩)
    ⟨MouseButton.right,
      [Binding.mk
        ⟨MouseButton.left, [Edge.top, Edge.left],
          [KeyboardModifier.controlLeft], PressState.press,
          [[⟨2, 2⟩]], [[⟨0, 1⟩, ⟨2, 3⟩]]⟩
        ["xlogo"] ""]⟩
    (Binding.mk
      ⟨MouseButton.left, [Edge.top, Edge.left],
        [KeyboardModifier.controlLeft], PressState.press,
        [[⟨2, 2⟩]], [[⟨0, 1⟩, ⟨2, 3⟩]]⟩
      ["xlogo"] "")
    (by decide) (by decide)).1

/-- C1 (code behavior at the failing input): when the watcher is triggered
and the replacement file fails to read or parse, the in-memory configuration
(bindings included) is left unchanged, but the reload iteration panics —
`load`'s `.unwrap()` on the parse error aborts the `watch_config` thread —
contrary to the specified "must not panic / watcher continues running"
resilience property; replacement does happen only on a fully successful
read and parse. -/
theorem watch_config_invalid_reload (current : Config) :
    (watch_config_reload current none).config = current ∧
    (watch_config_reload current none).config.bindings = current.bindings ∧
    (watch_config_reload current none).panicked = true ∧
    (∀ parsed : Option Config, (watch_config_reload current parsed).panicked =
      false → ∃ c0, parsed = some c0 ∧
        (watch_config_reload current parsed).config =
          derive_shapes_angles c0) := by
  refine ⟨rfl, rfl, rfl, ?_⟩
  intro parsed h
  cases parsed with
  | none => simp [watch_config_reload, load_from_str] at h
  | some c0 => exact ⟨c0, rfl, rfl⟩

/-- Witness for C1: a concrete previously loaded config survives a failing
reload, but the iteration panics. -/
theorem watch_config_invalid_reload_witness :
    (watch_config_reload ⟨MouseButton.right, []⟩ none).config =
      ⟨MouseButton.right, []⟩ ∧
    (watch_config_reload ⟨MouseButton.right, []⟩ none).panicked = true :=
  ⟨(watch_config_invalid_reload ⟨MouseButton.right, []⟩).1,
   (watch_config_invalid_reload ⟨MouseButton.right, []⟩).2.2.1⟩
